import Mathlib

/-!
Shallow embedding of the hatchery repository (Go) for specification checking.

The repository is a mock ledger/execution API.  Components modelled here:

* `Hatchery.Transaction`, `Hatchery.MemLedger` — the in-memory ledger
  (src/internal/app/hatchery/ledger.go, container/list version) and the
  older doubly-linked-pointer variant (`Hatchery.DL`, src/unnamed/part_001).
* `Hatchery.CronJob` — the recurring-job state machine (src/unnamed/part_000).
* `Hatchery.FSLibrary` — the filesystem-backed contract library
  (src/internal/app/hatchery/fs.go, the version with Credentials).
* `Hatchery.Docker` — docker.Contract.Execute's resource-handling skeleton
  (src/internal/app/docker/contract.go).
* `Hatchery.Bolt` — BoltDBHeap.GetAll / Put over a model of the boltdb
  bucket and cursor (src/internal/app/hatchery/boltdb.go).
* `Hatchery.postTransaction`, `Hatchery.postContract` — the HTTP-handler
  pipelines of Application (src/internal/app/hatchery/api.go, lines 347-410).

External collaborators (the docker process executor, JSON wire decoding,
time.ParseDuration, the boltdb engine) are out of scope per the spec and are
passed in as explicit oracle functions; machine bytes are `Nat` (0..255).
-/

namespace Hatchery

/-- Transaction (api.go lines 190-197): a unique ID plus raw content bytes. -/
structure Transaction where
  ID : String
  Content : List Nat
deriving DecidableEq, Repr

/-- Go errors returned by Library.Get; the pipeline compares the error
against the sentinel ErrContractNotExist by identity, so the sentinel is a
distinguished constructor. -/
inductive LibErr
| contractNotExist
| msg (s : String)
deriving DecidableEq, Repr

/-- HTTP responses written by the Application handlers: 404 (http.NotFound),
400 (StatusBadRequest), 500 (StatusInternalServerError), plain 200, or a
200 with the JSON-encoded transaction (writeJSONResponse). -/
inductive HResp
| ok
| okJSON (t : Transaction)
| notFound
| badRequest
| internalServerError
deriving DecidableEq, Repr

/-! ## CronJob (src/unnamed/part_000)

CronJob fields: inverval, executable, runningFlag (int32 used with
atomic.CompareAndSwapInt32), ticker, errorCh, outCh.  The channels and the
blocking tick loop are the concurrent part; the state machine below embeds
the fields that the guarded Run/Stop transitions read and write:
`runningFlag`, plus `tickersCreated`/`tickerActive` recording calls to
time.NewTicker and ticker.Stop on the `ticker` field. -/

/-- CronJob state (src/unnamed/part_000 lines 43-50).  `E` is the type of
the wrapped Executable.  `tickersCreated` counts time.NewTicker calls (each
one starts a fresh tick schedule); `tickerActive` is whether the ticker
currently held in the `ticker` field has not been stopped. -/
structure CronJob (E : Type) where
  inverval : Int
  executable : E
  runningFlag : Nat
  tickersCreated : Nat
  tickerActive : Bool
deriving DecidableEq, Repr

/-- Error sentinel ErrAlreadyRunning (part_000 lines 28-31). -/
inductive CronErr
| alreadyRunning
deriving DecidableEq, Repr

/-- NewCronJob (part_000 lines 54-61): runningFlag starts at 0 (Idle), no
ticker exists yet. -/
def NewCronJob {E : Type} (interval : Int) (executable : E) : CronJob E :=
  { inverval := interval, executable := executable, runningFlag := 0,
    tickersCreated := 0, tickerActive := false }

/-- The guarded entry of CronJob.Run (part_000 lines 67-71): the atomic
CompareAndSwapInt32(&runningFlag, 0, 1) either fails — returning
ErrAlreadyRunning with no state change — or succeeds, after which
`c.ticker = time.NewTicker(c.inverval)` creates a fresh ticker and the
blocking tick loop begins.  The loop itself (spawning an execution per
tick) is the concurrent remainder of Run and is not part of this step. -/
def CronJob.runStart {E : Type} (c : CronJob E) : Except CronErr Unit × CronJob E :=
  if c.runningFlag = 0 then
    (Except.ok (), { c with
      runningFlag := 1
      tickersCreated := c.tickersCreated + 1
      tickerActive := true })
  else
    (Except.error CronErr.alreadyRunning, c)

/-- CronJob.Stop (part_000 lines 89-93): CompareAndSwapInt32(&runningFlag,
1, 0); on success the ticker is stopped, otherwise nothing happens. -/
def CronJob.stop {E : Type} (c : CronJob E) : CronJob E :=
  if c.runningFlag = 1 then
    { c with runningFlag := 0, tickerActive := false }
  else
    c

/-- C4: calling Run a second time while the job is already Running
(runningFlag = 1) returns ErrAlreadyRunning and leaves the state — in
particular the ticker and its schedule — completely unchanged. -/
theorem cronJob_second_run_already_running {E : Type} (c : CronJob E)
    (h : c.runningFlag = 1) :
    CronJob.runStart c = (Except.error CronErr.alreadyRunning, c) := by
  simp [CronJob.runStart, h]

/-- Witness for C4: a concrete job started once; the second Run returns
ErrAlreadyRunning and changes nothing. -/
theorem cronJob_second_run_already_running_witness :
    ((CronJob.runStart (NewCronJob 100 ())).2.runningFlag = 1) ∧
    CronJob.runStart (CronJob.runStart (NewCronJob 100 ())).2 =
      (Except.error CronErr.alreadyRunning, (CronJob.runStart (NewCronJob 100 ())).2) :=
  ⟨rfl, cronJob_second_run_already_running _ rfl⟩

/-- Counterexample to C5: a concrete CronJob instance taken Idle → Running
(Run) → Idle (Stop); a subsequent Run on the very same instance SUCCEEDS
(the compare-and-swap sees runningFlag 0 again) and returns it to the
Running state with a fresh ticker, so the stopped instance IS restarted in
place, contradicting the claim. -/
theorem cronJob_restart_counterexample :
    (CronJob.runStart (CronJob.stop (CronJob.runStart (NewCronJob 100 ())).2)).1 =
      Except.ok () ∧
    (CronJob.runStart (CronJob.stop (CronJob.runStart (NewCronJob 100 ())).2)).2.runningFlag = 1 ∧
    (CronJob.runStart (CronJob.stop (CronJob.runStart (NewCronJob 100 ())).2)).2.tickersCreated = 2 := by
  refine ⟨rfl, rfl, rfl⟩

/-- C5 (amended): the Running → Idle transition is not terminal: for any
Running CronJob, after Stop a subsequent Run succeeds, returns the same
instance to Running and creates a fresh ticker (a new tick schedule). -/
theorem cronJob_restartable_in_place {E : Type} (c : CronJob E)
    (h : c.runningFlag = 1) :
    (CronJob.runStart (CronJob.stop c)).1 = Except.ok () ∧
    (CronJob.runStart (CronJob.stop c)).2.runningFlag = 1 ∧
    (CronJob.runStart (CronJob.stop c)).2.tickersCreated = c.tickersCreated + 1 := by
  simp [CronJob.stop, CronJob.runStart, h]

/-- Witness for the amended C5 at a concrete running job. -/
theorem cronJob_restartable_in_place_witness :
    ((CronJob.runStart (NewCronJob 7 ())).2.runningFlag = 1) ∧
    ((CronJob.runStart (CronJob.stop (CronJob.runStart (NewCronJob 7 ())).2)).1 = Except.ok () ∧
     (CronJob.runStart (CronJob.stop (CronJob.runStart (NewCronJob 7 ())).2)).2.runningFlag = 1 ∧
     (CronJob.runStart (CronJob.stop (CronJob.runStart (NewCronJob 7 ())).2)).2.tickersCreated =
       (CronJob.runStart (NewCronJob 7 ())).2.tickersCreated + 1) :=
  ⟨rfl, cronJob_restartable_in_place _ rfl⟩

/-! ## MemLedger (src/internal/app/hatchery/ledger.go)

The final MemLedger stores Transactions in a container/list doubly linked
list; container/list maintains the insertion sequence, so the state is the
sequence of appended transactions in order. -/

/-- MemLedger (ledger.go lines 26-28): the ordered sequence held by the
container/list. -/
structure MemLedger where
  ledger : List Transaction
deriving DecidableEq, Repr

/-- NewMemLedger (ledger.go lines 31-35): an empty list. -/
def NewMemLedger : MemLedger := { ledger := [] }

/-- MemLedger.Head (ledger.go lines 39-44): nil when Len() = 0, otherwise
the Front element. -/
def MemLedger.Head (l : MemLedger) : Option Transaction :=
  if l.ledger.length = 0 then none else l.ledger.head?

/-- The loop body of MemLedger.Find (ledger.go lines 50-60): walk from the
front, return the first transaction whose ID matches together with the
found flag. -/
def MemLedger.findLoop : List Transaction → String → Option Transaction × Bool
  | [], _ => (none, false)
  | t :: rest, id => if t.ID = id then (some t, true) else MemLedger.findLoop rest id

/-- MemLedger.Find (ledger.go lines 50-60). -/
def MemLedger.Find (l : MemLedger) (id : String) : Option Transaction × Bool :=
  MemLedger.findLoop l.ledger id

/-- MemLedger.Append (ledger.go lines 63-65): PushBack. -/
def MemLedger.Append (l : MemLedger) (t : Transaction) : MemLedger :=
  { ledger := l.ledger ++ [t] }

/-- Appending a whole sequence of transactions to a fresh ledger, in
order. -/
def MemLedger.appendAll (ts : List Transaction) : MemLedger :=
  ts.foldl MemLedger.Append NewMemLedger

theorem MemLedger.foldl_append_ledger (ts : List Transaction) (l : List Transaction) :
    (ts.foldl MemLedger.Append { ledger := l }).ledger = l ++ ts := by
  induction ts generalizing l with
  | nil => simp
  | cons t rest ih =>
      simp only [List.foldl_cons, MemLedger.Append, ih, List.append_assoc,
        List.singleton_append]

theorem MemLedger.appendAll_ledger (ts : List Transaction) :
    (MemLedger.appendAll ts).ledger = ts := by
  simpa [MemLedger.appendAll, NewMemLedger] using MemLedger.foldl_append_ledger ts []

theorem MemLedger.findLoop_mem (ts : List Transaction) (t : Transaction)
    (hdist : ts.Pairwise (fun a b => a.ID ≠ b.ID)) (hmem : t ∈ ts) :
    MemLedger.findLoop ts t.ID = (some t, true) := by
  induction ts with
  | nil => cases hmem
  | cons hd rest ih =>
      rcases List.mem_cons.mp hmem with h | h
      · subst h
        simp [MemLedger.findLoop]
      · have hne : hd.ID ≠ t.ID := (List.pairwise_cons.mp hdist).1 t h
        have := ih (List.pairwise_cons.mp hdist).2 h
        simp [MemLedger.findLoop, hne, this]

theorem MemLedger.findLoop_not_mem (ts : List Transaction) (id : String)
    (h : id ∉ ts.map Transaction.ID) :
    MemLedger.findLoop ts id = (none, false) := by
  induction ts with
  | nil => rfl
  | cons hd rest ih =>
      simp only [List.map_cons, List.mem_cons, not_or] at h
      have hne : ¬ hd.ID = id := fun hh => h.1 hh.symm
      simp [MemLedger.findLoop, hne, ih h.2]

/-- C6: for every sequence of Append calls on a fresh ledger (with the
pairwise-distinct IDs the pipeline's fresh UUIDs guarantee), Head returns
the first-appended transaction (none when nothing was appended), Find
returns exactly the transaction whose ID was appended, and Find on a
never-appended ID reports not-found. -/
theorem memLedger_head_find_correct (ts : List Transaction)
    (hdist : ts.Pairwise (fun a b => a.ID ≠ b.ID)) :
    (MemLedger.appendAll ts).Head = ts.head? ∧
    (∀ t ∈ ts, (MemLedger.appendAll ts).Find t.ID = (some t, true)) ∧
    (∀ id, id ∉ ts.map Transaction.ID →
      (MemLedger.appendAll ts).Find id = (none, false)) := by
  refine ⟨?_, ?_, ?_⟩
  · unfold MemLedger.Head
    rw [MemLedger.appendAll_ledger]
    cases ts <;> simp
  · intro t hmem
    unfold MemLedger.Find
    rw [MemLedger.appendAll_ledger]
    exact MemLedger.findLoop_mem ts t hdist hmem
  · intro id hid
    unfold MemLedger.Find
    rw [MemLedger.appendAll_ledger]
    exact MemLedger.findLoop_not_mem ts id hid

/-- Witness for C6 on a concrete two-element append sequence. -/
theorem memLedger_head_find_correct_witness :
    ([⟨"a", [1]⟩, ⟨"b", [2]⟩] : List Transaction).Pairwise (fun a b => a.ID ≠ b.ID) ∧
    (MemLedger.appendAll [⟨"a", [1]⟩, ⟨"b", [2]⟩]).Head = some ⟨"a", [1]⟩ ∧
    (MemLedger.appendAll [⟨"a", [1]⟩, ⟨"b", [2]⟩]).Find "b" = (some ⟨"b", [2]⟩, true) ∧
    (MemLedger.appendAll [⟨"a", [1]⟩, ⟨"b", [2]⟩]).Find "zzz" = (none, false) := by
  have h := memLedger_head_find_correct [⟨"a", [1]⟩, ⟨"b", [2]⟩] (by decide)
  refine ⟨by decide, h.1, ?_, h.2.2 "zzz" (by decide)⟩
  exact h.2.1 ⟨"b", [2]⟩ (by simp)

/-! ## Doubly-linked MemLedger variant (src/unnamed/part_001)

This MemLedger keeps explicit head/tail pointers and per-Transaction
Prev/Next pointers.  Pointers are modelled as indices into an arena of
nodes (`Option Nat`, none = nil); a nil-pointer dereference — a Go runtime
panic — is modelled by an operation returning `none` overall. -/

namespace DL

/-- A Transaction node of the part_001 variant: ID, Content and the Prev /
Next pointers (api.go lines 22-27 of the first version). -/
structure Node where
  id : String
  content : List Nat
  prev : Option Nat
  next : Option Nat
deriving DecidableEq, Repr

/-- The part_001 MemLedger: head and tail pointers over an arena of
nodes. -/
structure Ledger where
  nodes : List Node
  head : Option Nat
  tail : Option Nat
deriving DecidableEq, Repr

/-- The empty ledger (zero-value MemLedger: head = tail = nil). -/
def Ledger.empty : Ledger := { nodes := [], head := none, tail := none }

/-- Replace the node at arena index `i` by `f` of it (a pointer-field
assignment through a valid pointer). -/
def modifyNode (ns : List Node) (i : Nat) (f : Node → Node) : List Node :=
  match ns.get? i with
  | none => ns
  | some n => ns.set i (f n)

/-- MemLedger.Head (part_001 lines 8-10): returns the head pointer's
target (nil when the list is empty). -/
def Ledger.Head (l : Ledger) : Option Node :=
  match l.head with
  | none => none
  | some i => l.nodes.get? i

/-- MemLedger.Append (part_001 lines 23-31) for a freshly created
transaction `t` (Prev = Next = nil): if head is nil it becomes the new
node; if tail is non-nil, t.Prev and tail.Next are linked; tail becomes
the new node.  The fresh node is allocated at index `l.nodes.length`. -/
def Ledger.Append (l : Ledger) (id : String) (content : List Nat) : Ledger :=
  let i := l.nodes.length
  let head' := match l.head with
    | none => some i
    | some h => some h
  match l.tail with
  | none =>
      { nodes := l.nodes ++ [⟨id, content, none, none⟩], head := head', tail := some i }
  | some ti =>
      { nodes := modifyNode l.nodes ti (fun n => { n with next := some i }) ++
          [⟨id, content, some ti, none⟩]
        head := head'
        tail := some i }

/-- MemLedger.Pop (part_001 lines 33-41): if tail is nil return nil;
otherwise set tail to tail.Prev, clear the popped node's Prev pointer and
return it.  Note the source neither clears the new tail's Next pointer nor
updates head when the popped node was also the head. -/
def Ledger.Pop (l : Ledger) : Option Node × Ledger :=
  match l.tail with
  | none => (none, l)
  | some ti =>
      match l.nodes.get? ti with
      | none => (none, l)
      | some tn =>
          let nodes' := modifyNode l.nodes ti (fun n => { n with prev := none })
          (some { tn with prev := none }, { l with nodes := nodes', tail := tn.prev })

/-- The traversal loop of MemLedger.Remove (part_001 lines 43-55).  On a
match it executes `curr.Prev.Next = curr.Next` and then
`curr.Next.Prev = curr.Prev`; when curr.Prev (resp. curr.Next) is nil the
corresponding dereference is a nil-pointer panic, modelled as `none`.
Fuel bounds the pointer chase. -/
def removeLoop (l : Ledger) (id : String) :
    Nat → Option Nat → Option ((Option Node × Bool) × Ledger)
  | 0, _ => some ((none, false), l)
  | _ + 1, none => some ((none, false), l)
  | fuel + 1, some i =>
      match l.nodes.get? i with
      | none => none
      | some curr =>
          if curr.id = id then
            match curr.prev with
            | none => none
            | some p =>
                match curr.next with
                | none => none
                | some nx =>
                    let ns1 := modifyNode l.nodes p (fun n => { n with next := curr.next })
                    let ns2 := modifyNode ns1 nx (fun n => { n with prev := curr.prev })
                    let ns3 := modifyNode ns2 i (fun n => { n with next := none, prev := none })
                    some ((some { curr with next := none, prev := none }, true),
                      { l with nodes := ns3 })
          else
            removeLoop l id fuel curr.next

/-- MemLedger.Remove (part_001 lines 43-55): traverse from head; `none`
means the Go code panics on a nil-pointer dereference. -/
def Ledger.Remove (l : Ledger) (id : String) : Option ((Option Node × Bool) × Ledger) :=
  removeLoop l id (l.nodes.length + 1) l.head

end DL

/-- C7 evaluation: the administrative operations do fail hard and do leave
dangling links.  (1) Remove of the head element (here the only element)
dereferences the nil Prev pointer — a runtime panic, modelled as `none` —
instead of removing gracefully; (2) after Pop of the only element, the
head pointer still references the popped node while tail is nil, leaving a
dangling link; (3) Remove of the tail of a two-element list also panics on
the nil Next pointer. -/
theorem dlLedger_admin_ops_unsafe :
    (DL.Ledger.Remove (DL.Ledger.empty.Append "a" [1]) "a" = none) ∧
    ((DL.Ledger.Pop (DL.Ledger.empty.Append "a" [1])).2.head = some 0 ∧
     (DL.Ledger.Pop (DL.Ledger.empty.Append "a" [1])).2.tail = none) ∧
    (DL.Ledger.Remove ((DL.Ledger.empty.Append "a" [1]).Append "b" [2]) "b" = none) := by
  refine ⟨rfl, ⟨rfl, rfl⟩, rfl⟩

/-! ## FSLibrary (src/internal/app/hatchery/fs.go, lines 40-118)

The library stores one JSON manifest file per contract name under
BasePath.  The filesystem is modelled as the partial map from file name to
the manifest it holds (JSON encode/decode of a manifest round-trips; the
JSON wire format itself is out of scope per the spec).  The two
os-level facts the embedding relies on are: `os.Open` fails on a missing
file, and `os.OpenFile` with flag `os.O_WRONLY` alone (no O_CREATE) fails
with ENOENT when the file does not exist — it never creates a file. -/

/-- ContractManifest (api.go lines 220-244).  Env is the optional Go map
of extra environment variables, modelled as a partial function. -/
structure ContractManifest where
  TxnType : String
  Image : String
  Cmd : String
  Args : List String
  ExecutionOrder : String
  Env : String → Option String
  Cron : String
  Auth : String

/-- Credentials (fs.go lines 42-46). -/
structure Credentials where
  AuthKey : String
  AuthID : String
  DragonChainID : String
deriving DecidableEq, Repr

/-- Environment keys (fs.go lines 33-38). -/
def SCName : String := "SMART_CONTRACT_NAME"

def AuthKeyName : String := "AUTH_KEY"

def AuthIDName : String := "AUTH_KEY_ID"

def DragonChainIDName : String := "DRAGONCHAIN_ID"

/-- docker.Contract (src/internal/app/docker/contract.go lines 10-16), the
executable unit FSLibrary.Get materializes. -/
structure DockerContract where
  Name : String
  Env : String → Option String
  Image : String
  Command : String
  Args : List String

namespace FSLibrary

/-- The state of the library: the manifest files on disk under
BasePath. -/
def Files := String → Option ContractManifest

/-- The base environment FSLibrary.Get builds (fs.go lines 73-78) before
merging the manifest's own Env over it (lines 79-81, manifest entries
overwrite). -/
def mergedEnv (creds : Credentials) (m : ContractManifest) : String → Option String :=
  fun k =>
    match m.Env k with
    | some v => some v
    | none =>
        if k = SCName then some m.TxnType
        else if k = AuthKeyName then some creds.AuthKey
        else if k = AuthIDName then some creds.AuthID
        else if k = DragonChainIDName then some creds.DragonChainID
        else none

/-- FSLibrary.Get (fs.go lines 62-89): open the manifest file named by the
requested contract name — a failed open yields ErrContractNotExist —
decode the manifest, and return the docker.Contract built from it.
Decoding a manifest that Put stored always succeeds. -/
def Get (creds : Credentials) (files : Files) (name : String) :
    Except LibErr DockerContract :=
  match files name with
  | none => Except.error LibErr.contractNotExist
  | some m =>
      Except.ok
        { Name := m.TxnType, Env := mergedEnv creds m, Image := m.Image,
          Command := m.Cmd, Args := m.Args }

/-- FSLibrary.Put (fs.go lines 98-112): pull the docker image (the pull
collaborator is the oracle `pull`, returning an error message on failure),
then `os.OpenFile(path, os.O_WRONLY, 0600)` the manifest file.  Because
the flag set lacks O_CREATE, the open succeeds only if the file already
exists; on a fresh name it fails with ENOENT and Put returns the
"failed to create manifest" error.  On success the manifest is JSON
encoded into the file. -/
def Put (pull : String → Option String) (files : Files) (m : ContractManifest) :
    Except String Files :=
  match pull m.Image with
  | some e => Except.error ("failed to pull image: " ++ e)
  | none =>
      match files m.TxnType with
      | none => Except.error "failed to create manifest"
      | some _ => Except.ok (fun n => if n = m.TxnType then some m else files n)

end FSLibrary

/-- The empty filesystem: no manifest file exists. -/
def noFiles : FSLibrary.Files := fun _ => none

/-- A concrete manifest used to evaluate the registration pipeline. -/
def sampleManifest : ContractManifest :=
  { TxnType := "sc", Image := "acme/sc:1", Cmd := "run", Args := ["-v"],
    ExecutionOrder := "parallel", Env := fun _ => none, Cron := "", Auth := "" }

/-- C1 evaluation: (1) on a fresh name — the only way a manifest is ever
first registered — Put fails with "failed to create manifest" even though
the image pull succeeded, because os.OpenFile is called without O_CREATE;
so register-then-resolve never succeeds for a new name.  (2) The not-found
half of the claim holds: Get on a never-registered name yields
ErrContractNotExist.  (3) Only when the manifest file somehow already
exists does Put succeed, and Get then returns the execution target
described by the manifest. -/
theorem fsLibrary_put_cannot_create :
    (FSLibrary.Put (fun _ => none) noFiles sampleManifest =
      Except.error "failed to create manifest") ∧
    (FSLibrary.Get ⟨"k", "i", "d"⟩ noFiles "never-registered" =
      Except.error LibErr.contractNotExist) ∧
    (∀ files' : FSLibrary.Files,
      FSLibrary.Put (fun _ => none)
          (fun n => if n = "sc" then some sampleManifest else none) sampleManifest =
        Except.ok files' →
      ∃ c : DockerContract,
        FSLibrary.Get ⟨"k", "i", "d"⟩ files' "sc" = Except.ok c ∧
        c.Image = sampleManifest.Image ∧ c.Command = sampleManifest.Cmd ∧
        c.Args = sampleManifest.Args ∧ c.Name = sampleManifest.TxnType) := by
  refine ⟨rfl, rfl, ?_⟩
  intro files' h
  have hfiles : files' = fun n =>
      if n = "sc" then some sampleManifest
      else if n = "sc" then some sampleManifest else none := by
    have h' := h
    simp only [FSLibrary.Put, sampleManifest] at h'
    cases h'
    rfl
  subst hfiles
  exact ⟨_, rfl, rfl, rfl, rfl, rfl⟩

/-! ## docker.Contract.Execute (src/internal/app/docker/contract.go, lines 21-39)

Execute shells out to docker.Run, obtains the stdin and stdout pipes,
registers `defer w.Close()` only AFTER the stdout-pipe error check, writes
the payload and reads all output.  The external process is the oracle
`ExecEnv`; the trace records whether the stdin pipe was obtained and
whether it was closed before the function returned. -/

/-- The behavior of the external docker process for one Execute call:
each field is the outcome of the corresponding call in source order. -/
structure ExecEnv where
  runErr : Option String
  stdinPipeErr : Option String
  stdoutPipeErr : Option String
  writeErr : Option String
  readAllRes : Except String (List Nat)

/-- What happened to the stdin pipe during the call. -/
structure ExecTrace where
  stdinObtained : Bool
  stdinClosed : Bool
deriving DecidableEq, Repr

/-- Contract.Execute (contract.go lines 21-39), step by step:
Run error → early return; StdinPipe error → early return (w never
obtained); StdoutPipe error → early return — note this return precedes the
`defer w.Close()` on line 34, so the obtained stdin pipe is NOT closed on
this path; afterwards the deferred close runs on every remaining path
(write failure and the final ReadAll return). -/
def dockerExecute (env : ExecEnv) : Except String (List Nat) × ExecTrace :=
  match env.runErr with
  | some e => (Except.error ("failed to execute command: " ++ e), ⟨false, false⟩)
  | none =>
  match env.stdinPipeErr with
  | some e => (Except.error ("failed to initiate pipe to stdin: " ++ e), ⟨false, false⟩)
  | none =>
  match env.stdoutPipeErr with
  | some e => (Except.error ("failed to initiate pipe from stdout: " ++ e), ⟨true, false⟩)
  | none =>
  match env.writeErr with
  | some e => (Except.error ("failed to pipe to stdin: " ++ e), ⟨true, true⟩)
  | none => (env.readAllRes, ⟨true, true⟩)

/-- C8 evaluation: on the exit path where the stdin pipe was successfully
obtained but obtaining the stdout pipe fails, Execute returns WITHOUT
closing the stdin pipe (the `defer w.Close()` is registered only after
that early return), so end-of-input is never signalled there — the claim
that the input stream is closed on every exit path is false on this path,
while the later exit paths do close it. -/
theorem dockerExecute_stdin_leak :
    ((dockerExecute ⟨none, none, some "boom", none, Except.ok []⟩).2 =
      ⟨true, false⟩) ∧
    ((dockerExecute ⟨none, none, none, some "wfail", Except.ok []⟩).2 =
      ⟨true, true⟩) ∧
    ((dockerExecute ⟨none, none, none, none, Except.ok [7]⟩).2 = ⟨true, true⟩) := by
  refine ⟨rfl, rfl, rfl⟩

/-! ## BoltDBHeap (src/internal/app/hatchery/boltdb.go)

The heap delegates to the external boltdb engine.  A bucket is the finite
key→value map it holds, modelled as an association list (bolt stores keys
in sorted order; no theorem below depends on the order).  The cursor is
modelled from the boltdb Cursor implementation: `Bucket.Cursor()` returns
a cursor with an EMPTY page stack, and `Cursor.Next` first walks the stack
to advance — with an empty stack it immediately hits the root sentinel and
returns a nil key and value.  Only `First`/`Seek`/`Last` position the
stack; GetAll never calls them. -/

namespace Bolt

/-- A bolt bucket: the entries it holds. -/
abbrev Bucket := List (String × List Nat)

/-- A bolt database: named buckets. -/
abbrev DB := List (String × Bucket)

/-- Bucket.Put: insert or overwrite a key (last write wins). -/
def bucketPut (b : Bucket) (k : String) (v : List Nat) : Bucket :=
  if (b.map Prod.fst).contains k then
    b.map (fun p => if p.1 = k then (p.1, v) else p)
  else
    b ++ [(k, v)]

/-- Tx.CreateBucketIfNotExists followed by a read of the bucket's
entries. -/
def bucketEntries (db : DB) (bucket : String) : Bucket :=
  match db.find? (fun p => p.1 = bucket) with
  | some p => p.2
  | none => []

/-- BoltDBHeap.Put (boltdb.go lines 45-60): CreateBucketIfNotExists, then
Bucket.Put of the key/value pair. -/
def heapPut (db : DB) (bucket k : String) (v : List Nat) : DB :=
  if (db.map Prod.fst).contains bucket then
    db.map (fun p => if p.1 = bucket then (p.1, bucketPut p.2 k v) else p)
  else
    db ++ [(bucket, bucketPut [] k v)]

/-- Cursor.Next, modelled from the boltdb source: `none` position means the
cursor was never positioned (fresh cursor, empty stack) and Next returns a
nil key/value while leaving the cursor unpositioned; from position `i` it
advances to `i+1` when one exists and otherwise stays put returning
nil. -/
def cursorNext (entries : Bucket) :
    Option Nat → Option Nat × Option (String × List Nat)
  | none => (none, none)
  | some i =>
      if i + 1 < entries.length then (some (i + 1), entries.get? (i + 1))
      else (some i, none)

/-- The loop of BoltDBHeap.GetAll (boltdb.go lines 101-112): repeatedly
`k, v := curr.Next()`, break as soon as k or v is nil, otherwise store the
copied pair in the result map.  Fuel bounds the iteration. -/
def getAllLoop (entries : Bucket) :
    Nat → Option Nat → Bucket → Bucket
  | 0, _, acc => acc
  | fuel + 1, pos, acc =>
      match cursorNext entries pos with
      | (_, none) => acc
      | (pos', some kv) => getAllLoop entries fuel pos' (bucketPut acc kv.1 kv.2)

/-- BoltDBHeap.GetAll (boltdb.go lines 90-116): open the bucket (creating
it if absent), obtain a FRESH cursor — never positioned with First — and
run the Next loop. -/
def GetAll (db : DB) (bucket : String) : Bucket :=
  let entries := bucketEntries db bucket
  getAllLoop entries (entries.length + 1) none []

end Bolt

/-- C9 evaluation: Put really stores the entry in the bucket, yet GetAll
returns the empty map for EVERY database and bucket — the fresh cursor's
first Next() call returns a nil key (the cursor was never positioned with
First), so the loop breaks immediately and no previously-Put key ever
appears in the result, contradicting the claim (and GetAll's own doc
comment). -/
theorem boltGetAll_always_empty :
    (Bolt.bucketEntries (Bolt.heapPut [] "bkt" "a" [1]) "bkt" = [("a", [1])]) ∧
    (∀ (db : Bolt.DB) (bucket : String), Bolt.GetAll db bucket = []) := by
  refine ⟨rfl, ?_⟩
  intro db bucket
  rfl

/-! ## Application.PostTransaction (api.go lines 347-382)

The handler resolves the contract via Library.Get, executes it, tries to
json.Unmarshal the output into a `map[string]interface{}` and, for every
entry whose dynamic value encoding/binary can serialize, calls
Heap.Put(a.Bucket, key, encodedValue) — that write is best-effort (its
error is dropped).  Regardless of the persistence step it wraps the raw
output in a fresh Transaction, appends it to the Ledger and returns it.
The Library, the contract execution, json.Unmarshal and the fresh UUID are
oracle inputs; the state records the sequence of Heap.Put calls performed
and the ledger contents. -/

/-- A dynamic value held in the `map[string]interface{}` produced by
json.Unmarshal: JSON numbers become float64 (carried here as the 64 IEEE-754
bits), booleans become bool, and strings / null / arrays / objects become
types with no fixed binary size. -/
inductive JVal
| num (bits : Nat)
| bool (b : Bool)
| str (s : String)
| null
| arr
| obj
deriving DecidableEq, Repr

/-- The 8 big-endian bytes of a 64-bit word — what
binary.Write(buf, binary.BigEndian, x) emits for a float64 with those
bits. -/
def f64be (bits : Nat) : List Nat :=
  [bits / 2 ^ 56 % 256, bits / 2 ^ 48 % 256, bits / 2 ^ 40 % 256,
   bits / 2 ^ 32 % 256, bits / 2 ^ 24 % 256, bits / 2 ^ 16 % 256,
   bits / 2 ^ 8 % 256, bits % 256]

/-- binary.Write with binary.BigEndian on the dynamic value: float64 gives
its 8 big-endian bytes, bool one byte; strings, null, slices and maps have
no fixed size, so binary.Write returns an error and the pipeline skips the
Heap.Put for that key. -/
def binWrite : JVal → Option (List Nat)
  | JVal.num bits => some (f64be bits)
  | JVal.bool b => some [if b then 1 else 0]
  | _ => none

/-- The Heap-write and Ledger state PostTransaction touches:
`heapWrites` is the sequence of Heap.Put(bucket, key, value) calls
performed so far, `ledger` the appended transactions. -/
structure PTState where
  heapWrites : List (String × String × List Nat)
  ledger : List Transaction
deriving DecidableEq, Repr

/-- Application.PostTransaction (api.go lines 347-382) for one decoded
request, over oracles for a.Lib.Get (`get`), Contract.Execute (`exec`),
json.Unmarshal into a flat map (`unmarshal`, none = unmarshal error,
some = the map's entries in range order) and the fresh uuid (`newId`).
`bucket` is a.Bucket.  Returns the HTTP response and the state after the
call. -/
def postTransaction {C : Type} (get : String → Except LibErr C)
    (exec : C → List Nat → Except String (List Nat))
    (unmarshal : List Nat → Option (List (String × JVal)))
    (newId : String) (bucket : String)
    (reqType : String) (payload : List Nat) (s : PTState) : HResp × PTState :=
  match get reqType with
  | Except.error LibErr.contractNotExist => (HResp.notFound, s)
  | Except.error (LibErr.msg _) => (HResp.internalServerError, s)
  | Except.ok contract =>
    match exec contract payload with
    | Except.error _ => (HResp.internalServerError, s)
    | Except.ok content =>
      let writes :=
        match unmarshal content with
        | some entries =>
            entries.filterMap
              (fun kv => (binWrite kv.2).map (fun b => (bucket, kv.1, b)))
        | none => []
      let t : Transaction := { ID := newId, Content := content }
      (HResp.okJSON t,
       { heapWrites := s.heapWrites ++ writes, ledger := s.ledger ++ [t] })

/-- C2: whenever the resolved contract's execution fails, PostTransaction
performs no Heap write and no Ledger append — the state is returned
exactly as it was — and surfaces the failure to the caller as the 500
response. -/
theorem postTransaction_exec_failure {C : Type} (get : String → Except LibErr C)
    (exec : C → List Nat → Except String (List Nat))
    (unmarshal : List Nat → Option (List (String × JVal)))
    (newId bucket reqType : String) (payload : List Nat) (s : PTState)
    (c : C) (e : String)
    (hget : get reqType = Except.ok c)
    (hexec : exec c payload = Except.error e) :
    postTransaction get exec unmarshal newId bucket reqType payload s =
      (HResp.internalServerError, s) := by
  simp [postTransaction, hget, hexec]

/-- Witness for C2 with a concrete failing execution. -/
theorem postTransaction_exec_failure_witness :
    ((fun _ : String => (Except.ok () : Except LibErr Unit)) "sc" = Except.ok ()) ∧
    ((fun _ : Unit => fun _ : List Nat =>
        (Except.error "boom" : Except String (List Nat))) () [] = Except.error "boom") ∧
    postTransaction (fun _ => Except.ok ())
        (fun _ _ => Except.error "boom") (fun _ => none) "id0" "bkt" "sc" []
        { heapWrites := [], ledger := [] } =
      (HResp.internalServerError, { heapWrites := [], ledger := [] }) :=
  ⟨rfl, rfl,
   postTransaction_exec_failure _ _ _ "id0" "bkt" "sc" [] _ () "boom" rfl rfl⟩

/-- The raw bytes of the JSON object with fields a = 1 and b = 2 (the
ASCII text of that object). -/
def jsonAB : List Nat :=
  [123, 34, 97, 34, 58, 32, 49, 44, 32, 34, 98, 34, 58, 32, 50, 125]

/-- IEEE-754 bits of the float64 value 1. -/
def oneBits : Nat := 0x3FF0000000000000

/-- IEEE-754 bits of the float64 value 2. -/
def twoBits : Nat := 0x4000000000000000

/-- C3: when the executed contract outputs the flat JSON object with
a = 1 and b = 2 (json.Unmarshal yields a map with those two float64
entries), PostTransaction performs exactly two Heap writes under the
configured bucket — key a mapped to the 8-byte big-endian float64 encoding
of 1 and key b to that of 2 — appends exactly one transaction whose
content is the raw output bytes, and returns that transaction. -/
theorem postTransaction_flat_output {C : Type} (get : String → Except LibErr C)
    (exec : C → List Nat → Except String (List Nat))
    (unmarshal : List Nat → Option (List (String × JVal)))
    (newId bucket reqType : String) (payload : List Nat) (s : PTState)
    (c : C) (content : List Nat)
    (hget : get reqType = Except.ok c)
    (hexec : exec c payload = Except.ok content)
    (hjson : unmarshal content =
      some [("a", JVal.num oneBits), ("b", JVal.num twoBits)]) :
    postTransaction get exec unmarshal newId bucket reqType payload s =
      (HResp.okJSON { ID := newId, Content := content },
       { heapWrites := s.heapWrites ++
           [(bucket, "a", f64be oneBits), (bucket, "b", f64be twoBits)]
         ledger := s.ledger ++ [{ ID := newId, Content := content }] }) := by
  simp [postTransaction, hget, hexec, hjson, binWrite, List.filterMap]

/-- Witness for C3: a concrete contract whose output is the literal bytes
of the JSON object, with the unmarshal oracle defined at exactly those
bytes. -/
theorem postTransaction_flat_output_witness :
    ((fun _ : String => (Except.ok () : Except LibErr Unit)) "sc" = Except.ok ()) ∧
    ((fun _ : Unit => fun _ : List Nat =>
        (Except.ok jsonAB : Except String (List Nat))) () [] = Except.ok jsonAB) ∧
    ((fun bs => if bs = jsonAB then
        some [("a", JVal.num oneBits), ("b", JVal.num twoBits)]
      else none) jsonAB =
        some [("a", JVal.num oneBits), ("b", JVal.num twoBits)]) ∧
    postTransaction (fun _ => Except.ok ())
        (fun _ _ => Except.ok jsonAB)
        (fun bs => if bs = jsonAB then
            some [("a", JVal.num oneBits), ("b", JVal.num twoBits)]
          else none)
        "id0" "bkt" "sc" [] { heapWrites := [], ledger := [] } =
      (HResp.okJSON { ID := "id0", Content := jsonAB },
       { heapWrites := [("bkt", "a", f64be oneBits), ("bkt", "b", f64be twoBits)]
         ledger := [{ ID := "id0", Content := jsonAB }] }) := by
  refine ⟨rfl, rfl, by simp, ?_⟩
  have h := postTransaction_flat_output (fun _ => Except.ok ())
    (fun _ _ => Except.ok jsonAB)
    (fun bs => if bs = jsonAB then
        some [("a", JVal.num oneBits), ("b", JVal.num twoBits)]
      else none)
    "id0" "bkt" "sc" [] { heapWrites := [], ledger := [] } () jsonAB rfl rfl (by simp)
  simpa using h

/-! ## Application.PostContract (api.go lines 386-410)

The handler decodes the manifest, and — when the Cron field is non-empty —
parses it with time.ParseDuration BEFORE anything else; a parse failure
returns 400 immediately.  Only then is Lib.Put called, and only for a
positive interval is startCronJob run (lines 412-440), which looks the
contract up again, spawns the drain goroutines and records the job in the
cron table under the table lock.  time.ParseDuration and the Library are
oracles; the action trace records the Lib.Put call and the cron-job
creation, and the cron table maps names to tick intervals. -/

/-- The externally visible effects of one PostContract call. -/
inductive PCAction
| putCalled (m : ContractManifest)
| cronStarted (name : String) (interval : Int)

/-- Overwrite-or-insert into the cron table (the map assignment
`a.cronTab[name] = cron`). -/
def tabSet (tab : List (String × Int)) (k : String) (v : Int) :
    List (String × Int) :=
  if (tab.map Prod.fst).contains k then
    tab.map (fun p => if p.1 = k then (p.1, v) else p)
  else
    tab ++ [(k, v)]

/-- Application.PostContract (api.go lines 386-410) plus startCronJob
(lines 412-440) for one decoded manifest, over oracles for
time.ParseDuration (`parseDuration`, nanosecond result), Lib.Put (`put`,
some = error) and Lib.Get inside startCronJob (`get`).  Returns the HTTP
response, the cron table after the call and the action trace. -/
def postContract (parseDuration : String → Except String Int)
    (put : ContractManifest → Option String)
    (get : String → Except LibErr Unit)
    (req : ContractManifest) (tab : List (String × Int)) :
    HResp × List (String × Int) × List PCAction :=
  let afterParse := fun (interval : Int) =>
    match put req with
    | some _ => (HResp.internalServerError, tab, [PCAction.putCalled req])
    | none =>
        if 0 < interval then
          match get req.TxnType with
          | Except.error _ =>
              (HResp.internalServerError, tab, [PCAction.putCalled req])
          | Except.ok _ =>
              (HResp.ok, tabSet tab req.TxnType interval,
               [PCAction.putCalled req, PCAction.cronStarted req.TxnType interval])
        else (HResp.ok, tab, [PCAction.putCalled req])
  if req.Cron = "" then afterParse 0
  else
    match parseDuration req.Cron with
    | Except.error _ => (HResp.badRequest, tab, [])
    | Except.ok interval => afterParse interval

/-- C10: when the manifest's Cron field is non-empty but unparseable, the
request fails with 400 before any state change: Lib.Put is never called
(the manifest is not stored), no cron job is created, and the cron table
is returned unchanged. -/
theorem postContract_bad_cron (parseDuration : String → Except String Int)
    (put : ContractManifest → Option String)
    (get : String → Except LibErr Unit)
    (req : ContractManifest) (tab : List (String × Int)) (e : String)
    (hne : req.Cron ≠ "")
    (hpd : parseDuration req.Cron = Except.error e) :
    postContract parseDuration put get req tab = (HResp.badRequest, tab, []) := by
  simp [postContract, hne, hpd]

/-- A manifest whose Cron field is not a parseable duration. -/
def badCronManifest : ContractManifest :=
  { TxnType := "sc", Image := "acme/sc:1", Cmd := "run", Args := [],
    ExecutionOrder := "parallel", Env := fun _ => none, Cron := "every-day",
    Auth := "" }

/-- Witness for C10 at a concrete manifest and a ParseDuration oracle
that rejects its Cron string. -/
theorem postContract_bad_cron_witness :
    (badCronManifest.Cron ≠ "") ∧
    ((fun _ : String => (Except.error "time: invalid duration" :
        Except String Int)) badCronManifest.Cron =
      Except.error "time: invalid duration") ∧
    postContract (fun _ => Except.error "time: invalid duration")
        (fun _ => none) (fun _ => Except.ok ()) badCronManifest
        [("other", 5)] =
      (HResp.badRequest, [("other", 5)], []) :=
  ⟨by decide, rfl,
   postContract_bad_cron _ _ _ badCronManifest [("other", 5)]
     "time: invalid duration" (by decide) rfl⟩

end Hatchery
